import Mathlib

set_option autoImplicit false

namespace SGLogger

/-- Values stored in a `Fields` map (Go `interface{}` restricted to the
scalar shapes the logger actually stores and serializes). -/
inductive GoValue where
  | str : String → GoValue
  | int : Int → GoValue
  | bool : Bool → GoValue
  deriving DecidableEq, Repr

/-- The entries of a (non-nil) Go `map[string]interface{}`: an association
list; the Go map's key-uniqueness is carried as a `Nodup` hypothesis where
a theorem needs it. -/
abbrev FieldMap := List (String × GoValue)

/-- Go distinguishes a nil map from an empty map; `none` models the nil
map, `some entries` a (possibly empty) allocated map. -/
abbrev Fields := Option FieldMap

/-- Go map read `m[k]` for our association-list model. -/
def mapLookup : List (String × GoValue) → String → Option GoValue
  | [], _ => none
  | (k', v) :: rest, k => if k' = k then some v else mapLookup rest k

/-- Go map write `m[k] = v`: overwrite an existing key or append. -/
def mapInsert : List (String × GoValue) → String → GoValue → List (String × GoValue)
  | [], k, v => [(k, v)]
  | (k', v') :: rest, k, v =>
      if k' = k then (k, v) :: rest else (k', v') :: mapInsert rest k v

/-- Go `maps.Copy(dst, src)`: write every entry of `src` into `dst`. -/
def mapsCopy (dst : List (String × GoValue)) : List (String × GoValue) → List (String × GoValue)
  | [] => dst
  | (k, v) :: rest => mapsCopy (mapInsert dst k v) rest

/-- Reading a nil Go map yields no entries; copying from it copies nothing. -/
def fieldsEntries (f : Fields) : List (String × GoValue) :=
  match f with
  | Option.none => []
  | Option.some entries => entries

/-- Lookup through the nil-map wrapper. -/
def fieldsLookup (f : Fields) (k : String) : Option GoValue :=
  mapLookup (fieldsEntries f) k

/-- First-some choice, used to state map-override facts. -/
def orOpt (a b : Option GoValue) : Option GoValue :=
  match a with
  | Option.some v => Option.some v
  | Option.none => b

/-- A `context.Context` as the logger observes it: `none` is a nil context;
`some v` is a non-nil context whose `ctx.Value(TraceIDKey)` result is `v`
(`none` when no value is stored under the key, otherwise the stored value,
which need not be a string). -/
abbrev Ctx := Option (Option GoValue)

/-- `ExtractFieldsFromContext` of the concrete `fieldsHandler`: nil context
returns the input unchanged; otherwise copy the input into a fresh map and,
when the context value type-asserts to `string`, set `trace_id`. -/
def ExtractFieldsFromContext (ctx : Ctx) (fields : Fields) : Fields :=
  match ctx with
  | Option.none => fields
  | Option.some traceVal =>
      let result := mapsCopy [] (fieldsEntries fields)
      match traceVal with
      | Option.some (GoValue.str traceID) =>
          Option.some (mapInsert result "trace_id" (GoValue.str traceID))
      | _ => Option.some result

/-- `MergeFields` of the concrete `fieldsHandler`: fresh map, copy
`fields1`, then copy `fields2` on top. -/
def MergeFields (fields1 fields2 : Fields) : Fields :=
  Option.some (mapsCopy (mapsCopy [] (fieldsEntries fields1)) (fieldsEntries fields2))

/-- The `FieldsHandler` collaborator interface: `ExtractFieldsFromContext`
and `MergeFields`. -/
structure FieldsHandler where
  extractFieldsFromContext : Ctx → Fields → Fields
  mergeFields : Fields → Fields → Fields

/-- `NewFieldsHandler`: the repository's only `FieldsHandler`
implementation, built from the two concrete functions. -/
def NewFieldsHandler : FieldsHandler :=
  { extractFieldsFromContext := ExtractFieldsFromContext
    mergeFields := MergeFields }

/-- `Level`, the five severities declared by `iota` (Debug = 0 upward). -/
inductive Level where
  | debug
  | info
  | warn
  | error
  | fatal
  deriving DecidableEq, Repr

/-- The numeric value `iota` assigns to each `Level` constant. -/
def Level.toNat : Level → Nat
  | Level.debug => 0
  | Level.info => 1
  | Level.warn => 2
  | Level.error => 3
  | Level.fatal => 4

/-- `LoggerConfig`: empty base configuration struct. -/
structure LoggerConfig where

/-- `ProviderConfig`: embeds `LoggerConfig` and adds the provider's level. -/
structure ProviderConfig extends LoggerConfig where
  Level : Level

/-- A Go `error` is observed only through `err.Error()`, so it is modelled
by its message string (claims about `*Err*` methods assume a non-nil
error; a nil error would panic in the Go code before reaching the logic
modelled here). -/
abbrev GoError := String

/-- The `fmtProvider` struct: stdout provider holding its config. -/
structure FmtProvider where
  config : ProviderConfig

/-- `NewFmtProvider` constructor. -/
def NewFmtProvider (config : ProviderConfig) : FmtProvider :=
  { config := config }

/-- `fmtProvider.ShouldLog`: `level >= p.config.Level` on the iota values. -/
def FmtProvider.ShouldLog (p : FmtProvider) (_ctx : Ctx) (level : Level) : Bool :=
  decide (p.config.Level.toNat ≤ level.toNat)

/-- The level name the `switch` in `fmtProvider.Write` prints. -/
def levelString : Level → String
  | Level.debug => "debug"
  | Level.info => "info"
  | Level.warn => "warning"
  | Level.error => "error"
  | Level.fatal => "critical"

/-- Rendering of one map value as `fmt.Sprintf` does inside
`serializeFields`: `%q` for strings, `%v` otherwise. `%q` wraps in double
quotes and backslash-escapes; modelled here for quote, backslash and the
common control characters. -/
def goQuoteChar (c : Char) : String :=
  if c = '"' then "\\\""
  else if c = '\\' then "\\\\"
  else if c = '\n' then "\\n"
  else if c = '\t' then "\\t"
  else if c = '\r' then "\\r"
  else String.singleton c

/-- `%q` rendering of a string value. -/
def goQuote (s : String) : String :=
  "\"" ++ String.join (s.toList.map goQuoteChar) ++ "\""

/-- One `key=value` pair as `serializeFields` renders it. -/
def pairString : String × GoValue → String
  | (k, GoValue.str s) => k ++ "=" ++ goQuote s
  | (k, GoValue.int n) => k ++ "=" ++ toString n
  | (k, GoValue.bool b) => k ++ "=" ++ (if b then "true" else "false")

/-- Go `strings.Join` with the `" "` separator. -/
def joinSpace : List String → String
  | [] => ""
  | [s] => s
  | s :: rest => s ++ " " ++ joinSpace rest

/-- `serializeFields`: empty map (nil included) gives `""`; otherwise
`{k=v ...}`. Go iterates the map in unspecified order; the model iterates
the association list in its own deterministic order, one admissible Go
iteration order. -/
def serializeFields (fields : Fields) : String :=
  if (fieldsEntries fields).length = 0 then ""
  else "\x7b" ++ joinSpace ((fieldsEntries fields).map pairString) ++ "\x7d"

/-- `fmtProvider.Write`. `now` is the `time.Now().Format("2006-01-02
15:04:05")` string, passed as a parameter since the clock is ambient in
Go. Returns the Go return value (`error`, always nil here) together with
the list of lines printed to stdout. -/
def FmtProvider.Write (p : FmtProvider) (now : String) (ctx : Ctx) (level : Level)
    (message : String) (fields : Fields) : Option GoError × List String :=
  if p.ShouldLog ctx level = false then (Option.none, [])
  else
    (Option.none,
      ["[" ++ now ++ "] " ++ levelString level ++ " \"" ++ message ++ "\" "
        ++ serializeFields fields ++ "\n"])

/-- `fmtProvider.Close`: does nothing, returns nil. -/
def FmtProvider.Close (_p : FmtProvider) (_ctx : Ctx) : Option GoError :=
  Option.none

/-- An arbitrary `LoggerProvider` as the dispatcher sees it: its
`ShouldLog` predicate and, for `Write`, the error value the call returns
(the call's side effects are recorded in the dispatch trace instead). -/
structure Provider where
  ShouldLog : Ctx → Level → Bool
  Write : Ctx → Level → String → Fields → Option GoError

/-- Observable actions of one logging call, in the order they happen:
`write i level message fields result` is the `Write` invocation on the
provider at list position `i` (with the return value the provider gave),
and `fatalExit message` is the `log.Fatal` / `log.Fatalf` process
termination. -/
inductive Event where
  | write (idx : Nat) (level : Level) (message : String) (fields : Fields)
      (result : Option GoError)
  | fatalExit (message : String)
  deriving DecidableEq, Repr

/-- The `logger` struct: the configured provider list and the
fields-handling collaborator (the mutex and the unused `config` field
carry no logic visible to these claims). -/
structure Logger where
  providers : List Provider
  fieldsHandler : FieldsHandler

/-- The `for _, provider := range l.providers` loop body of `writeLog`,
over the providers paired with their list positions. -/
def writeLogLoop (ctx : Ctx) (level : Level) (message : String) (allFields : Fields) :
    List (Nat × Provider) → List Event
  | [] => []
  | (i, p) :: rest =>
      if p.ShouldLog ctx level then
        Event.write i level message allFields (p.Write ctx level message allFields)
          :: writeLogLoop ctx level message allFields rest
      else
        writeLogLoop ctx level message allFields rest

/-- `logger.writeLog`: extract context fields through the handler, then
fan out over the providers in configured order. Returns the trace of
observable actions; the Go function returns nothing, so no provider error
can reach it. -/
def Logger.writeLog (l : Logger) (ctx : Ctx) (level : Level) (message : String)
    (fields : Fields) : List Event :=
  let allFields := l.fieldsHandler.extractFieldsFromContext ctx fields
  writeLogLoop ctx level message allFields l.providers.enum

/-- The `Fields{"error": err.Error()}` literal the `*Err*` methods build. -/
def errFields (err : GoError) : Fields :=
  Option.some [("error", GoValue.str err)]

/-- `logger.Debug` (the `fmt.Sprintf` formatting is the host language's;
`message` is the already-formatted string). -/
def Logger.Debug (l : Logger) (ctx : Ctx) (message : String) : List Event :=
  l.writeLog ctx Level.debug message Option.none

/-- `logger.Info`. -/
def Logger.Info (l : Logger) (ctx : Ctx) (message : String) : List Event :=
  l.writeLog ctx Level.info message Option.none

/-- `logger.Warning`. -/
def Logger.Warning (l : Logger) (ctx : Ctx) (message : String) : List Event :=
  l.writeLog ctx Level.warn message Option.none

/-- `logger.Error`. -/
def Logger.Error (l : Logger) (ctx : Ctx) (message : String) : List Event :=
  l.writeLog ctx Level.error message Option.none

/-- `logger.Fatal`: dispatch, then `log.Fatal(message)`. -/
def Logger.Fatal (l : Logger) (ctx : Ctx) (message : String) : List Event :=
  l.writeLog ctx Level.fatal message Option.none ++ [Event.fatalExit message]

/-- `logger.DebugErr`. -/
def Logger.DebugErr (l : Logger) (ctx : Ctx) (err : GoError) (message : String) : List Event :=
  l.writeLog ctx Level.debug message (errFields err)

/-- `logger.InfoErr`. -/
def Logger.InfoErr (l : Logger) (ctx : Ctx) (err : GoError) (message : String) : List Event :=
  l.writeLog ctx Level.info message (errFields err)

/-- `logger.WarningErr`. -/
def Logger.WarningErr (l : Logger) (ctx : Ctx) (err : GoError) (message : String) : List Event :=
  l.writeLog ctx Level.warn message (errFields err)

/-- `logger.ErrorErr`. -/
def Logger.ErrorErr (l : Logger) (ctx : Ctx) (err : GoError) (message : String) : List Event :=
  l.writeLog ctx Level.error message (errFields err)

/-- `logger.FatalErr`: dispatch, then `log.Fatalf("%s: %v", message, err)`. -/
def Logger.FatalErr (l : Logger) (ctx : Ctx) (err : GoError) (message : String) : List Event :=
  l.writeLog ctx Level.fatal message (errFields err)
    ++ [Event.fatalExit (message ++ ": " ++ err)]

/-- `logger.DebugWithFields`. -/
def Logger.DebugWithFields (l : Logger) (ctx : Ctx) (fields : Fields) (message : String) :
    List Event :=
  l.writeLog ctx Level.debug message fields

/-- `logger.InfoWithFields`. -/
def Logger.InfoWithFields (l : Logger) (ctx : Ctx) (fields : Fields) (message : String) :
    List Event :=
  l.writeLog ctx Level.info message fields

/-- `logger.WarningWithFields`. -/
def Logger.WarningWithFields (l : Logger) (ctx : Ctx) (fields : Fields) (message : String) :
    List Event :=
  l.writeLog ctx Level.warn message fields

/-- `logger.ErrorWithFields`. -/
def Logger.ErrorWithFields (l : Logger) (ctx : Ctx) (fields : Fields) (message : String) :
    List Event :=
  l.writeLog ctx Level.error message fields

/-- `logger.FatalWithFields`: dispatch, then `log.Fatal(message)`. -/
def Logger.FatalWithFields (l : Logger) (ctx : Ctx) (fields : Fields) (message : String) :
    List Event :=
  l.writeLog ctx Level.fatal message fields ++ [Event.fatalExit message]

/-- `logger.DebugErrWithFields`: merge the error overlay onto the explicit
fields through the handler, then dispatch. -/
def Logger.DebugErrWithFields (l : Logger) (ctx : Ctx) (err : GoError) (fields : Fields)
    (message : String) : List Event :=
  l.writeLog ctx Level.debug message (l.fieldsHandler.mergeFields fields (errFields err))

/-- `logger.InfoErrWithFields`. -/
def Logger.InfoErrWithFields (l : Logger) (ctx : Ctx) (err : GoError) (fields : Fields)
    (message : String) : List Event :=
  l.writeLog ctx Level.info message (l.fieldsHandler.mergeFields fields (errFields err))

/-- `logger.WarningErrWithFields`. -/
def Logger.WarningErrWithFields (l : Logger) (ctx : Ctx) (err : GoError) (fields : Fields)
    (message : String) : List Event :=
  l.writeLog ctx Level.warn message (l.fieldsHandler.mergeFields fields (errFields err))

/-- `logger.ErrorErrWithFields`. -/
def Logger.ErrorErrWithFields (l : Logger) (ctx : Ctx) (err : GoError) (fields : Fields)
    (message : String) : List Event :=
  l.writeLog ctx Level.error message (l.fieldsHandler.mergeFields fields (errFields err))

/-- `logger.FatalErrWithFields`: dispatch, then `log.Fatalf`. -/
def Logger.FatalErrWithFields (l : Logger) (ctx : Ctx) (err : GoError) (fields : Fields)
    (message : String) : List Event :=
  l.writeLog ctx Level.fatal message (l.fieldsHandler.mergeFields fields (errFields err))
    ++ [Event.fatalExit (message ++ ": " ++ err)]

/-- Position of the provider a `write` event invoked, `none` for the
fatal-exit event. -/
def Event.writeIdx : Event → Option Nat
  | Event.write i _ _ _ _ => Option.some i
  | Event.fatalExit _ => Option.none

/-- The provider positions whose `Write` a trace invoked, in call order. -/
def invokedIdxs (tr : List Event) : List Nat :=
  tr.filterMap Event.writeIdx

/-- A map write is read back at the written key, and leaves other keys
unchanged. -/
theorem mapLookup_mapInsert (m : FieldMap) (k : String) (v : GoValue) (k' : String) :
    mapLookup (mapInsert m k v) k' = if k = k' then Option.some v else mapLookup m k' := by
  induction m with
  | nil =>
      by_cases h : k = k' <;> simp [mapInsert, mapLookup, h]
  | cons kv rest ih =>
      obtain ⟨k₀, v₀⟩ := kv
      by_cases h₀ : k₀ = k
      · subst h₀
        by_cases h : k₀ = k' <;> simp [mapInsert, mapLookup, h]
      · by_cases h' : k₀ = k'
        · subst h'
          have hk : ¬k = k₀ := fun he => h₀ he.symm
          simp [mapInsert, h₀, mapLookup, hk]
        · simp [mapInsert, h₀, mapLookup, h', ih]

/-- A key absent from the association list looks up to `none`. -/
theorem mapLookup_eq_none_of_not_mem (m : FieldMap) (k : String)
    (h : k ∉ m.map Prod.fst) : mapLookup m k = Option.none := by
  induction m with
  | nil => rfl
  | cons kv rest ih =>
      obtain ⟨k₀, v₀⟩ := kv
      simp only [List.map_cons, List.mem_cons, not_or] at h
      have hk : ¬k₀ = k := fun he => h.1 he.symm
      simp [mapLookup, hk, ih h.2]

/-- `maps.Copy(dst, src)` semantics on lookups: a key present in `src`
(whose keys are unique, as a Go map's are) reads `src`'s value, any other
key reads `dst`'s. -/
theorem mapLookup_mapsCopy (src : FieldMap) (dst : FieldMap) (k : String)
    (hnd : (src.map Prod.fst).Nodup) :
    mapLookup (mapsCopy dst src) k = orOpt (mapLookup src k) (mapLookup dst k) := by
  induction src generalizing dst with
  | nil => simp [mapsCopy, mapLookup, orOpt]
  | cons kv rest ih =>
      obtain ⟨k₀, v₀⟩ := kv
      simp only [List.map_cons, List.nodup_cons] at hnd
      by_cases h : k₀ = k
      · subst h
        have hrest : mapLookup rest k₀ = Option.none :=
          mapLookup_eq_none_of_not_mem rest k₀ hnd.1
        simp [mapsCopy, ih _ hnd.2, mapLookup, hrest, mapLookup_mapInsert, orOpt]
      · simp [mapsCopy, ih _ hnd.2, mapLookup, h, mapLookup_mapInsert, orOpt]

/-- `orOpt` with an empty right side is the identity. -/
theorem orOpt_none_right (a : Option GoValue) : orOpt a Option.none = a := by
  cases a <;> rfl

/-- Copying a unique-keyed map into a fresh map preserves every lookup. -/
theorem mapLookup_mapsCopy_nil (src : FieldMap) (k : String)
    (hnd : (src.map Prod.fst).Nodup) :
    mapLookup (mapsCopy [] src) k = mapLookup src k := by
  rw [mapLookup_mapsCopy src [] k hnd]
  simp [mapLookup, orOpt_none_right]

/-- The dispatch loop invokes exactly the providers whose `ShouldLog`
holds, keeping the list order. -/
theorem invokedIdxs_writeLogLoop (ctx : Ctx) (level : Level) (message : String)
    (allFields : Fields) (ps : List (Nat × Provider)) :
    invokedIdxs (writeLogLoop ctx level message allFields ps)
      = (ps.filter (fun ip => ip.2.ShouldLog ctx level)).map Prod.fst := by
  induction ps with
  | nil => rfl
  | cons ip rest ih =>
      obtain ⟨i, p⟩ := ip
      by_cases h : p.ShouldLog ctx level
      · simp [writeLogLoop, h, invokedIdxs, Event.writeIdx, List.filter_cons] at ih ⊢
        exact ih
      · simp [writeLogLoop, h, invokedIdxs, List.filter_cons] at ih ⊢
        exact ih

/-- `writeLog`'s invoked positions are the filter of the enumerated
provider list by `ShouldLog`. -/
theorem invokedIdxs_writeLog (l : Logger) (ctx : Ctx) (level : Level) (message : String)
    (fields : Fields) :
    invokedIdxs (l.writeLog ctx level message fields)
      = (l.providers.enum.filter (fun ip => ip.2.ShouldLog ctx level)).map Prod.fst :=
  invokedIdxs_writeLogLoop ctx level message _ l.providers.enum

/-- Position `i` gets a `Write` call in a `writeLog` dispatch exactly when
provider `i`'s `ShouldLog` holds. -/
theorem mem_invokedIdxs_iff (l : Logger) (ctx : Ctx) (level : Level) (message : String)
    (fields : Fields) (i : Nat) (h : i < l.providers.length) :
    i ∈ invokedIdxs (l.writeLog ctx level message fields)
      ↔ (l.providers.get ⟨i, h⟩).ShouldLog ctx level = true := by
  rw [invokedIdxs_writeLog]
  constructor
  · intro hi
    obtain ⟨ip, hmem, hfst⟩ := List.mem_map.mp hi
    obtain ⟨henum, hP⟩ := List.mem_filter.mp hmem
    obtain ⟨j, p⟩ := ip
    simp only at hfst
    subst hfst
    have hget : l.providers[j]? = Option.some p := List.mk_mem_enum_iff_getElem?.mp henum
    have hget' : l.providers[j]? = Option.some (l.providers.get ⟨j, h⟩) := by simp
    rw [hget'] at hget
    cases hget
    simpa using hP
  · intro hS
    apply List.mem_map.mpr
    refine ⟨(i, l.providers.get ⟨i, h⟩), ?_, rfl⟩
    apply List.mem_filter.mpr
    refine ⟨List.mk_mem_enum_iff_getElem?.mpr (by simp), by simpa using hS⟩

/-- The dispatch sequence of the loop depends only on each pair's index
and `ShouldLog` verdict, not on the `Write` results, messages or fields. -/
theorem invokedIdxs_writeLogLoop_congr (ctx : Ctx) (level : Level)
    (m₁ m₂ : String) (f₁ f₂ : Fields) :
    ∀ (ps qs : List (Nat × Provider)),
    ps.map (fun ip => (ip.1, ip.2.ShouldLog ctx level))
      = qs.map (fun ip => (ip.1, ip.2.ShouldLog ctx level)) →
    invokedIdxs (writeLogLoop ctx level m₁ f₁ ps)
      = invokedIdxs (writeLogLoop ctx level m₂ f₂ qs) := by
  intro ps
  induction ps with
  | nil =>
      intro qs hq
      have : qs = [] := List.map_eq_nil_iff.mp hq.symm
      subst this
      rfl
  | cons ip rest ih =>
      intro qs hq
      cases qs with
      | nil => exact absurd hq (by simp)
      | cons jq qrest =>
          simp only [List.map_cons, List.cons.injEq] at hq
          obtain ⟨hhead, htail⟩ := hq
          obtain ⟨i, p⟩ := ip
          obtain ⟨j, q⟩ := jq
          simp only [Prod.mk.injEq] at hhead
          obtain ⟨hij, hS⟩ := hhead
          subst hij
          by_cases h : p.ShouldLog ctx level
          · simp [writeLogLoop, h, ← hS, invokedIdxs, Event.writeIdx]
            exact ih qrest htail
          · simp [writeLogLoop, h, ← hS, invokedIdxs]
            exact ih qrest htail

/-- The dispatch loop never terminates the process: every event it emits
is a `Write` invocation. -/
theorem fatalExit_not_mem_writeLogLoop (ctx : Ctx) (level : Level) (message : String)
    (allFields : Fields) (m : String) :
    ∀ ps : List (Nat × Provider), Event.fatalExit m ∉ writeLogLoop ctx level message allFields ps := by
  intro ps
  induction ps with
  | nil => simp [writeLogLoop]
  | cons ip rest ih =>
      obtain ⟨i, p⟩ := ip
      by_cases h : p.ShouldLog ctx level
      · simp [writeLogLoop, h, ih]
      · simp [writeLogLoop, h, ih]

/-- `writeLog` emits no process-terminating event. -/
theorem fatalExit_not_mem_writeLog (l : Logger) (ctx : Ctx) (level : Level)
    (message : String) (fields : Fields) (m : String) :
    Event.fatalExit m ∉ l.writeLog ctx level message fields :=
  fatalExit_not_mem_writeLogLoop ctx level message _ m l.providers.enum

/-- A string of nonzero length is not the empty string. -/
theorem ne_empty_of_length_pos (s : String) (h : 0 < s.length) : s ≠ "" := by
  intro he
  rw [he] at h
  simp at h

/-- Every rendered `key=value` pair is a nonempty string. -/
theorem pairString_length_pos (kv : String × GoValue) : 0 < (pairString kv).length := by
  obtain ⟨k, v⟩ := kv
  have h1 : ("=" : String).length = 1 := rfl
  have h2 : ("\"" : String).length = 1 := rfl
  cases v with
  | str s =>
      simp [pairString, goQuote, String.length_append, h1, h2]
  | int n =>
      simp only [pairString, String.length_append, h1]
      omega
  | bool b =>
      cases b <;> simp [pairString, String.length_append, h1]

/-- Joining a list headed by a nonempty string is nonempty. -/
theorem joinSpace_cons_length_pos (x : String) (xs : List String) (h : 0 < x.length) :
    0 < (joinSpace (x :: xs)).length := by
  cases xs with
  | nil => simpa [joinSpace] using h
  | cons y ys =>
      have hsp : (" " : String).length = 1 := rfl
      simp only [joinSpace, String.length_append, hsp]
      omega

/-- C5: `ExtractFieldsFromContext` on a nil context returns the input
fields value itself (no panic, nil map preserved); on a non-nil context
carrying a string trace identifier it returns a fresh non-nil map whose
`trace_id` entry holds the context's value — overwriting any `trace_id`
already in the input — and which agrees with the input (whose keys are
unique, as a Go map's are) on every other key; the input is untouched. -/
theorem ExtractFieldsFromContext_spec :
    (∀ f : Fields, ExtractFieldsFromContext Option.none f = f)
    ∧ ∀ (t : String) (f : Fields),
        ((fieldsEntries f).map Prod.fst).Nodup →
        fieldsLookup (ExtractFieldsFromContext (Option.some (Option.some (GoValue.str t))) f)
            "trace_id" = Option.some (GoValue.str t)
        ∧ (∀ k, k ≠ "trace_id" →
            fieldsLookup (ExtractFieldsFromContext (Option.some (Option.some (GoValue.str t))) f) k
              = fieldsLookup f k)
        ∧ ExtractFieldsFromContext (Option.some (Option.some (GoValue.str t))) f ≠ Option.none := by
  refine ⟨fun f => rfl, ?_⟩
  intro t f hnd
  refine ⟨?_, ?_, by simp [ExtractFieldsFromContext]⟩
  · show mapLookup (mapInsert (mapsCopy [] (fieldsEntries f)) "trace_id" (GoValue.str t))
        "trace_id" = Option.some (GoValue.str t)
    rw [mapLookup_mapInsert]
    simp
  · intro k hk
    show mapLookup (mapInsert (mapsCopy [] (fieldsEntries f)) "trace_id" (GoValue.str t)) k
        = fieldsLookup f k
    rw [mapLookup_mapInsert,
      if_neg (show ¬"trace_id" = k from fun he => hk he.symm)]
    exact mapLookup_mapsCopy_nil _ k hnd

/-- Witness for C5 at a concrete input: a context carrying trace id `"T"`
over fields already holding `trace_id = "OLD"`; the context's value wins. -/
theorem ExtractFieldsFromContext_spec_witness :
    ((fieldsEntries (Option.some [("trace_id", GoValue.str "OLD")])).map Prod.fst).Nodup
    ∧ fieldsLookup
        (ExtractFieldsFromContext (Option.some (Option.some (GoValue.str "T")))
          (Option.some [("trace_id", GoValue.str "OLD")])) "trace_id"
      = Option.some (GoValue.str "T") :=
  ⟨by decide,
    (ExtractFieldsFromContext_spec.2 "T" (Option.some [("trace_id", GoValue.str "OLD")])
      (by decide)).1⟩

/-- C6: `MergeFields` returns a fresh non-nil map on which every key reads
the overlay's value when the overlay (a Go map, keys unique) has the key
and the base's value otherwise; the inputs (the base also unique-keyed)
are untouched, and merging two empty maps — nil or allocated — yields the
allocated empty map. -/
theorem MergeFields_spec (base overlay : Fields)
    (hb : ((fieldsEntries base).map Prod.fst).Nodup)
    (ho : ((fieldsEntries overlay).map Prod.fst).Nodup) :
    (∀ k, fieldsLookup (MergeFields base overlay) k
        = orOpt (fieldsLookup overlay k) (fieldsLookup base k))
    ∧ MergeFields base overlay ≠ Option.none
    ∧ MergeFields Option.none Option.none = Option.some []
    ∧ MergeFields (Option.some []) (Option.some []) = Option.some [] := by
  refine ⟨?_, by simp [MergeFields], rfl, rfl⟩
  intro k
  show mapLookup (mapsCopy (mapsCopy [] (fieldsEntries base)) (fieldsEntries overlay)) k = _
  rw [mapLookup_mapsCopy _ _ _ ho, mapLookup_mapsCopy_nil _ _ hb]
  rfl

/-- Witness for C6 at the spec's example `Merge({a:1,b:2}, {b:3,c:4})`:
the colliding key `b` reads the overlay's value. -/
theorem MergeFields_spec_witness :
    fieldsLookup
        (MergeFields (Option.some [("a", GoValue.int 1), ("b", GoValue.int 2)])
          (Option.some [("b", GoValue.int 3), ("c", GoValue.int 4)])) "b"
      = orOpt
          (fieldsLookup (Option.some [("b", GoValue.int 3), ("c", GoValue.int 4)]) "b")
          (fieldsLookup (Option.some [("a", GoValue.int 1), ("b", GoValue.int 2)]) "b") :=
  (MergeFields_spec (Option.some [("a", GoValue.int 1), ("b", GoValue.int 2)])
    (Option.some [("b", GoValue.int 3), ("c", GoValue.int 4)]) (by decide) (by decide)).1 "b"

/-- C7: for any context, a provider with minimum severity `b` accepts a
severity `a` exactly when `a >= b` under the fixed numeric ordering
Debug = 0 < Info = 1 < Warn = 2 < Error = 3 < Fatal = 4. -/
theorem FmtProvider_ShouldLog_spec :
    ∀ (cfg : ProviderConfig) (ctx : Ctx) (a : Level),
      ((NewFmtProvider cfg).ShouldLog ctx a = true ↔ cfg.Level.toNat ≤ a.toNat)
      ∧ Level.debug.toNat = 0 ∧ Level.info.toNat = 1 ∧ Level.warn.toNat = 2
      ∧ Level.error.toNat = 3 ∧ Level.fatal.toNat = 4 := by
  intro cfg ctx a
  refine ⟨?_, rfl, rfl, rfl, rfl, rfl⟩
  simp [NewFmtProvider, FmtProvider.ShouldLog]

/-- Stub provider for concrete dispatch checks: accepts every level,
writes successfully. -/
def passProvider : Provider :=
  { ShouldLog := fun _ _ => true
    Write := fun _ _ _ _ => Option.none }

/-- Stub provider whose `Write` always reports an error. -/
def failProvider : Provider :=
  { ShouldLog := fun _ _ => true
    Write := fun _ _ _ _ => Option.some "disk full" }

/-- Stub provider filtering below Error severity. -/
def errorOnlyProvider : Provider :=
  { ShouldLog := fun _ level => decide (Level.error.toNat ≤ level.toNat)
    Write := fun _ _ _ _ => Option.none }

/-- Two-provider logger: one all-pass provider, one Error-threshold one. -/
def testLoggerA : Logger :=
  { providers := [passProvider, errorOnlyProvider]
    fieldsHandler := NewFieldsHandler }

/-- Three-provider logger whose middle provider fails every write. -/
def testLoggerB : Logger :=
  { providers := [passProvider, failProvider, passProvider]
    fieldsHandler := NewFieldsHandler }

/-- C1: one `writeLog` call invokes `Write` on exactly the providers whose
`ShouldLog` accepts the level — the invocation sequence is the
`ShouldLog`-filtered provider list in configured order — and a provider
whose `ShouldLog` rejects is never written to in that call. -/
theorem writeLog_dispatches_exactly_qualifying (l : Logger) (ctx : Ctx) (level : Level)
    (message : String) (fields : Fields) :
    invokedIdxs (l.writeLog ctx level message fields)
      = (l.providers.enum.filter (fun ip => ip.2.ShouldLog ctx level)).map Prod.fst
    ∧ ∀ (i : Nat) (h : i < l.providers.length),
        (i ∈ invokedIdxs (l.writeLog ctx level message fields)
          ↔ (l.providers.get ⟨i, h⟩).ShouldLog ctx level = true) :=
  ⟨invokedIdxs_writeLog l ctx level message fields,
    fun i h => mem_invokedIdxs_iff l ctx level message fields i h⟩

/-- Witness for C1 on a concrete logger: at Info the all-pass provider
(position 0) is written, the Error-threshold provider (position 1) is
not. -/
theorem writeLog_dispatches_exactly_qualifying_witness :
    1 < testLoggerA.providers.length
    ∧ invokedIdxs (testLoggerA.writeLog Option.none Level.info "m" Option.none) = [0]
    ∧ (1 ∈ invokedIdxs (testLoggerA.writeLog Option.none Level.info "m" Option.none)
        ↔ (testLoggerA.providers.get ⟨1, by decide⟩).ShouldLog Option.none Level.info = true) :=
  ⟨by decide, by decide,
    (writeLog_dispatches_exactly_qualifying testLoggerA Option.none Level.info "m"
      Option.none).2 1 (by decide)⟩

/-- C2: provider write errors are swallowed by the dispatch: a failing
provider never stops a later qualifying provider from being written
(first conjunct), the dispatch sequence is identical for any providers
with the same `ShouldLog` verdicts whatever their `Write` results,
messages or fields (second conjunct, so no `Write` return value can reach
or affect anything), and the invocation sequence stays in ascending
configured order (third conjunct). -/
theorem writeLog_swallows_errors_exhaustive (l : Logger) (ctx : Ctx) (level : Level)
    (message : String) (fields : Fields) (i j : Nat)
    (hi : i < l.providers.length) (hj : j < l.providers.length) (e : GoError) :
    (i < j →
      (l.providers.get ⟨i, hi⟩).Write ctx level message
          (l.fieldsHandler.extractFieldsFromContext ctx fields) = Option.some e →
      (l.providers.get ⟨j, hj⟩).ShouldLog ctx level = true →
      j ∈ invokedIdxs (l.writeLog ctx level message fields))
    ∧ (∀ (l₂ : Logger) (message₂ : String) (fields₂ : Fields),
        l₂.providers.length = l.providers.length →
        (∀ (k : Nat) (hk : k < l.providers.length) (hk₂ : k < l₂.providers.length),
          (l₂.providers.get ⟨k, hk₂⟩).ShouldLog ctx level
            = (l.providers.get ⟨k, hk⟩).ShouldLog ctx level) →
        invokedIdxs (l₂.writeLog ctx level message₂ fields₂)
          = invokedIdxs (l.writeLog ctx level message fields))
    ∧ (invokedIdxs (l.writeLog ctx level message fields)).Sorted (· < ·) := by
  refine ⟨?_, ?_, ?_⟩
  · intro _ _ hSj
    exact (mem_invokedIdxs_iff l ctx level message fields j hj).mpr hSj
  · intro l₂ message₂ fields₂ hlen hpt
    apply invokedIdxs_writeLogLoop_congr
    apply List.ext_getElem (by simp [hlen])
    intro n h1 h2
    have hn₂ : n < l₂.providers.length := by simpa using h1
    have hn : n < l.providers.length := by simpa using h2
    simp only [List.getElem_map, List.getElem_enum, Prod.mk.injEq, true_and]
    simpa using hpt n hn hn₂
  · rw [invokedIdxs_writeLog]
    have hsub :
        ((l.providers.enum.filter (fun ip => ip.2.ShouldLog ctx level)).map Prod.fst).Sublist
          (l.providers.enum.map Prod.fst) :=
      (List.filter_sublist _).map Prod.fst
    rw [List.enum_map_fst] at hsub
    exact (List.sorted_lt_range _).sublist hsub

/-- Witness for C2 on the three-provider logger with a failing middle
provider: all three positions are written, in order. -/
theorem writeLog_swallows_errors_exhaustive_witness :
    invokedIdxs (testLoggerB.writeLog Option.none Level.info "m" Option.none) = [0, 1, 2]
    ∧ 2 ∈ invokedIdxs (testLoggerB.writeLog Option.none Level.info "m" Option.none) :=
  ⟨by decide,
    (writeLog_swallows_errors_exhaustive testLoggerB Option.none Level.info "m"
        Option.none 1 2 (by decide) (by decide) "disk full").1
      (by decide) (by rfl) (by rfl)⟩

/-- C3: every Fatal-family method terminates the process, as its final
action, strictly after the full provider dispatch: its trace is an
ordinary `writeLog` dispatch followed by exactly the terminating event,
and the dispatch itself contains no terminating event. This holds for
every provider list, including ones whose every `Write` fails. -/
theorem Fatal_family_terminates_after_dispatch (l : Logger) (ctx : Ctx) (err : GoError)
    (fields : Fields) (message : String) :
    ((l.Fatal ctx message).getLast? = Option.some (Event.fatalExit message)
      ∧ (l.Fatal ctx message).dropLast = l.writeLog ctx Level.fatal message Option.none)
    ∧ ((l.FatalErr ctx err message).getLast?
          = Option.some (Event.fatalExit (message ++ ": " ++ err))
      ∧ (l.FatalErr ctx err message).dropLast
          = l.writeLog ctx Level.fatal message (errFields err))
    ∧ ((l.FatalWithFields ctx fields message).getLast?
          = Option.some (Event.fatalExit message)
      ∧ (l.FatalWithFields ctx fields message).dropLast
          = l.writeLog ctx Level.fatal message fields)
    ∧ ((l.FatalErrWithFields ctx err fields message).getLast?
          = Option.some (Event.fatalExit (message ++ ": " ++ err))
      ∧ (l.FatalErrWithFields ctx err fields message).dropLast
          = l.writeLog ctx Level.fatal message
              (l.fieldsHandler.mergeFields fields (errFields err)))
    ∧ ∀ (m : String) (level : Level) (f : Fields),
        Event.fatalExit m ∉ l.writeLog ctx level message f := by
  refine ⟨⟨?_, ?_⟩, ⟨?_, ?_⟩, ⟨?_, ?_⟩, ⟨?_, ?_⟩, ?_⟩
  · exact List.getLast?_concat _
  · exact List.dropLast_concat
  · exact List.getLast?_concat _
  · exact List.dropLast_concat
  · exact List.getLast?_concat _
  · exact List.dropLast_concat
  · exact List.getLast?_concat _
  · exact List.dropLast_concat
  · intro m level f
    exact fatalExit_not_mem_writeLog l ctx level message f m

/-- C4: each `*ErrWithFields` method hands `writeLog` exactly the merge of
the explicit fields (base, a Go map with unique keys) and the one-entry
`error` map (overlay), for a logger wired to the repository's fields
handler: the delivered map carries the error argument's message under
`"error"` — even when the explicit fields had an `"error"` entry — and
the explicit fields' value on every other key. -/
theorem ErrWithFields_delivers_merged_fields (l : Logger) (ctx : Ctx) (err : GoError)
    (fields : Fields) (message : String)
    (hfh : l.fieldsHandler = NewFieldsHandler)
    (hnd : ((fieldsEntries fields).map Prod.fst).Nodup) :
    (l.DebugErrWithFields ctx err fields message
        = l.writeLog ctx Level.debug message (MergeFields fields (errFields err)))
    ∧ (l.InfoErrWithFields ctx err fields message
        = l.writeLog ctx Level.info message (MergeFields fields (errFields err)))
    ∧ (l.WarningErrWithFields ctx err fields message
        = l.writeLog ctx Level.warn message (MergeFields fields (errFields err)))
    ∧ (l.ErrorErrWithFields ctx err fields message
        = l.writeLog ctx Level.error message (MergeFields fields (errFields err)))
    ∧ (l.FatalErrWithFields ctx err fields message
        = l.writeLog ctx Level.fatal message (MergeFields fields (errFields err))
            ++ [Event.fatalExit (message ++ ": " ++ err)])
    ∧ fieldsLookup (MergeFields fields (errFields err)) "error"
        = Option.some (GoValue.str err)
    ∧ ∀ k, k ≠ "error" →
        fieldsLookup (MergeFields fields (errFields err)) k = fieldsLookup fields k := by
  refine ⟨by simp [Logger.DebugErrWithFields, hfh, NewFieldsHandler],
    by simp [Logger.InfoErrWithFields, hfh, NewFieldsHandler],
    by simp [Logger.WarningErrWithFields, hfh, NewFieldsHandler],
    by simp [Logger.ErrorErrWithFields, hfh, NewFieldsHandler],
    by simp [Logger.FatalErrWithFields, hfh, NewFieldsHandler], ?_, ?_⟩
  · show mapLookup (mapsCopy (mapsCopy [] (fieldsEntries fields))
        [("error", GoValue.str err)]) "error" = Option.some (GoValue.str err)
    rw [mapLookup_mapsCopy _ _ _ (by simp)]
    simp [mapLookup, orOpt]
  · intro k hk
    show mapLookup (mapsCopy (mapsCopy [] (fieldsEntries fields))
        [("error", GoValue.str err)]) k = fieldsLookup fields k
    rw [mapLookup_mapsCopy _ _ _ (by simp), mapLookup_mapsCopy_nil _ _ hnd]
    simp [mapLookup, if_neg (show ¬"error" = k from fun he => hk he.symm), orOpt]
    rfl

/-- Witness for C4 at a concrete input whose explicit fields already set
`"error"`: the error argument's message wins. -/
theorem ErrWithFields_delivers_merged_fields_witness :
    ((fieldsEntries (Option.some [("error", GoValue.str "OLD")])).map Prod.fst).Nodup
    ∧ fieldsLookup
        (MergeFields (Option.some [("error", GoValue.str "OLD")]) (errFields "boom")) "error"
      = Option.some (GoValue.str "boom") :=
  ⟨by decide,
    (ErrWithFields_delivers_merged_fields testLoggerA Option.none "boom"
      (Option.some [("error", GoValue.str "OLD")]) "m" rfl (by decide)).2.2.2.2.2.1⟩

/-- C8: when the console provider's filter passes, `Write` emits exactly
one line `[<timestamp>] <levelname> "<message>" <fieldsBlock>` ending in a
newline, with Fatal printing `critical` (and debug/info/warning/error for
the rest); an empty fields map renders as the empty string — never the
text `{}` — and a non-empty one as a brace-wrapped, space-joined,
non-empty block whose string-typed values are double-quoted. -/
theorem FmtProvider_Write_line_format (p : FmtProvider) (now : String) (ctx : Ctx)
    (level : Level) (message : String) (fields : Fields)
    (hS : p.ShouldLog ctx level = true) :
    (p.Write now ctx level message fields).2
      = ["[" ++ now ++ "] " ++ levelString level ++ " \"" ++ message ++ "\" "
          ++ serializeFields fields ++ "\n"]
    ∧ levelString Level.fatal = "critical"
    ∧ (levelString Level.debug = "debug" ∧ levelString Level.info = "info"
        ∧ levelString Level.warn = "warning" ∧ levelString Level.error = "error")
    ∧ (fieldsEntries fields = [] → serializeFields fields = "")
    ∧ serializeFields fields ≠ "\x7b\x7d"
    ∧ (fieldsEntries fields ≠ [] →
        serializeFields fields
          = "\x7b" ++ joinSpace ((fieldsEntries fields).map pairString) ++ "\x7d"
        ∧ 0 < (joinSpace ((fieldsEntries fields).map pairString)).length)
    ∧ ∀ (k s : String),
        pairString (k, GoValue.str s) = k ++ "=" ++ goQuote s
        ∧ ∃ q, goQuote s = "\"" ++ q ++ "\"" := by
  have hshape : fieldsEntries fields ≠ [] →
      serializeFields fields
        = "\x7b" ++ joinSpace ((fieldsEntries fields).map pairString) ++ "\x7d"
      ∧ 0 < (joinSpace ((fieldsEntries fields).map pairString)).length := by
    intro he
    obtain ⟨e, rest, hcons⟩ := List.exists_cons_of_ne_nil he
    refine ⟨by simp [serializeFields, List.length_eq_zero, he], ?_⟩
    rw [hcons, List.map_cons]
    exact joinSpace_cons_length_pos _ _ (pairString_length_pos e)
  refine ⟨by simp [FmtProvider.Write, hS], rfl, ⟨rfl, rfl, rfl, rfl⟩,
    fun he => by simp [serializeFields, he], ?_, hshape,
    fun k s => ⟨rfl, ⟨String.join (s.toList.map goQuoteChar), rfl⟩⟩⟩
  by_cases he : fieldsEntries fields = []
  · have h0 : serializeFields fields = "" := by simp [serializeFields, he]
    rw [h0]
    decide
  · obtain ⟨hsh, hpos⟩ := hshape he
    have l1 : ("\x7b" : String).length = 1 := rfl
    have l2 : ("\x7d" : String).length = 1 := rfl
    have l3 : ("\x7b\x7d" : String).length = 2 := rfl
    intro hcontra
    rw [hsh] at hcontra
    have hlen := congrArg String.length hcontra
    rw [String.length_append, String.length_append, l1, l2, l3] at hlen
    omega

/-- Witness for C8 on the spec's format scenario: threshold Debug, level
Info, message `hello`, one string field. -/
theorem FmtProvider_Write_line_format_witness :
    (NewFmtProvider { toLoggerConfig := {}, Level := Level.debug }).ShouldLog
        Option.none Level.info = true
    ∧ ((NewFmtProvider { toLoggerConfig := {}, Level := Level.debug }).Write
          "2025-01-01 00:00:00" Option.none Level.info "hello"
          (Option.some [("user", GoValue.str "bob")])).2
        = ["[2025-01-01 00:00:00] info \"hello\" \x7buser=\"bob\"\x7d\n"] :=
  ⟨by decide,
    by
      rw [(FmtProvider_Write_line_format
        (NewFmtProvider { toLoggerConfig := {}, Level := Level.debug })
        "2025-01-01 00:00:00" Option.none Level.info "hello"
        (Option.some [("user", GoValue.str "bob")]) (by decide)).1]
      rfl⟩

/-- C9: the console provider's `Write` returns nil for every input; it can
never report an error, so a dispatcher running only console providers can
never observe a write failure. -/
theorem FmtProvider_Write_never_errors (p : FmtProvider) (now : String) (ctx : Ctx)
    (level : Level) (message : String) (fields : Fields) :
    (p.Write now ctx level message fields).1 = Option.none := by
  simp only [FmtProvider.Write]
  split <;> rfl

/-- C10: calling the console provider's `Write` with a level its own
`ShouldLog` rejects is a silent successful no-op: nil error, nothing
printed — the filter is re-checked inside `Write` itself. -/
theorem FmtProvider_Write_noop_below_threshold (p : FmtProvider) (now : String) (ctx : Ctx)
    (level : Level) (message : String) (fields : Fields)
    (h : p.ShouldLog ctx level = false) :
    p.Write now ctx level message fields = (Option.none, []) := by
  simp [FmtProvider.Write, h]

/-- Witness for C10: a Warn-threshold provider written at Debug emits
nothing and returns nil. -/
theorem FmtProvider_Write_noop_below_threshold_witness :
    (NewFmtProvider { toLoggerConfig := {}, Level := Level.warn }).ShouldLog
        Option.none Level.debug = false
    ∧ (NewFmtProvider { toLoggerConfig := {}, Level := Level.warn }).Write
        "2025-01-01 00:00:00" Option.none Level.debug "quiet" Option.none
      = (Option.none, []) :=
  ⟨by decide,
    FmtProvider_Write_noop_below_threshold
      (NewFmtProvider { toLoggerConfig := {}, Level := Level.warn })
      "2025-01-01 00:00:00" Option.none Level.debug "quiet" Option.none (by decide)⟩

end SGLogger
